import Mathlib

/-!
Verification of the btc-ai-trader core against its design specification.

The development shallowly embeds the three specified components:
* `Risk` — the risk gate (`src/risk.py`, class `RiskManager`);
* `WsStream` — candle-close flags and rolling trade flow (`src/ws_stream.py`);
* `Indicators` — the pandas indicator pipeline over the close series
  (`src/data.py`, `compute_indicators`) and the multi-timeframe
  aggregator (`fetch_multi_timeframe`).

Python floats are modelled as exact rationals (`ℚ`); a pandas `NaN` cell is
modelled as `none : Option ℚ`.  Square roots are irrational in general, so the
Bollinger development carries the square of the rolling standard deviation and
compares band values through the (strictly monotone) real square root.
-/

set_option maxRecDepth 2000

namespace BtcTrader

/-! ## Configuration constants (`src/config.py`) -/

def MAX_POSITION_SIZE_PCT : ℚ := 90

def MAX_LEVERAGE : ℚ := 20

def MIN_CONFIDENCE : ℚ := 3 / 10

def MAX_DRAWDOWN_PCT : ℚ := 50

def MAX_CONSECUTIVE_LOSSES : ℕ := 12

namespace Risk

/-! ## Risk gate (`src/risk.py`)

A Python decision dict is modelled by a structure of optional fields: a field
is `none` when the corresponding key is absent, mirroring `dict.get(key,
default)`.  The reason strings built by `RiskManager.validate` are abstracted
into the inductive `Reason`, one constructor per `return` site, in source
order; the payload text is irrelevant to the claims. -/

structure Decision where
  action : Option String
  position_size_percent : Option ℚ
  leverage : Option ℚ
  confidence : Option ℚ
  stop_loss : Option ℚ
  take_profit : Option ℚ
deriving DecidableEq

/-- One constructor per `return` statement of `RiskManager.validate`, in the
order they appear in `src/risk.py`. -/
inductive Reason where
  | holdOk
  | closeOk
  | drawdownLimit
  | lossStreakLimit
  | openPositionLimit
  | sizeLimit
  | sizeNonPositive
  | leverageLimit
  | leverageBelowOne
  | confidenceLimit
  | stopLevels
  | approved
deriving DecidableEq

/-- Local `action = decision.get("action", "HOLD")`. -/
def actionOf (d : Decision) : String :=
  match d.action with
  | some a => a
  | none => "HOLD"

/-- Local `size_pct = decision.get("position_size_percent", 0)`. -/
def sizePctOf (d : Decision) : ℚ :=
  match d.position_size_percent with
  | some s => s
  | none => 0

/-- Local `leverage = decision.get("leverage", 0)`. -/
def leverageOf (d : Decision) : ℚ :=
  match d.leverage with
  | some l => l
  | none => 0

/-- Local `confidence = decision.get("confidence", 0)`. -/
def confidenceOf (d : Decision) : ℚ :=
  match d.confidence with
  | some c => c
  | none => 0

/-- Local `sl = decision.get("stop_loss", 0)`. -/
def slOf (d : Decision) : ℚ :=
  match d.stop_loss with
  | some s => s
  | none => 0

/-- Local `tp = decision.get("take_profit", 0)`. -/
def tpOf (d : Decision) : ℚ :=
  match d.take_profit with
  | some t => t
  | none => 0

/-- The `drawdown_pct` local of `RiskManager.validate` (src/risk.py lines
41-45). -/
def drawdown_pct (starting_balance current_balance : ℚ) : ℚ :=
  if starting_balance > 0 then
    (starting_balance - current_balance) / starting_balance * 100
  else 0

/-- `RiskManager.validate` (src/risk.py lines 20-96).  The `RiskManager`
instance state is passed explicitly (`starting_balance`,
`consecutive_losses`); `open_positions` is a list whose element type is
irrelevant — the source only tests its truthiness (emptiness). -/
def validate {P : Type} (starting_balance : ℚ) (consecutive_losses : ℕ)
    (decision : Decision) (current_balance : ℚ) (open_positions : List P) :
    Bool × Reason :=
  if actionOf decision = "HOLD" then (true, Reason.holdOk)
  else if actionOf decision = "CLOSE" then (true, Reason.closeOk)
  else if drawdown_pct starting_balance current_balance ≥ MAX_DRAWDOWN_PCT then
    (false, Reason.drawdownLimit)
  else if MAX_CONSECUTIVE_LOSSES ≤ consecutive_losses then
    (false, Reason.lossStreakLimit)
  else if open_positions.isEmpty = false then
    (false, Reason.openPositionLimit)
  else if sizePctOf decision > MAX_POSITION_SIZE_PCT then
    (false, Reason.sizeLimit)
  else if sizePctOf decision ≤ 0 then
    (false, Reason.sizeNonPositive)
  else if leverageOf decision > MAX_LEVERAGE then
    (false, Reason.leverageLimit)
  else if leverageOf decision < 1 then
    (false, Reason.leverageBelowOne)
  else if confidenceOf decision < MIN_CONFIDENCE then
    (false, Reason.confidenceLimit)
  else if slOf decision ≤ 0 ∨ tpOf decision ≤ 0 then
    (false, Reason.stopLevels)
  else (true, Reason.approved)

/-- `RiskManager.record_trade_result` (src/risk.py lines 100-105), acting on
the `consecutive_losses` counter. -/
def record_trade_result (pnl : ℚ) (consecutive_losses : ℕ) : ℕ :=
  if pnl < 0 then consecutive_losses + 1 else 0

end Risk

end BtcTrader

namespace BtcTrader

namespace Risk

/-- C1: the risk gate applies its checks in the fixed source order and the
first failing check alone fixes the verdict and reason.  For any decision
with action BUY or SELL, leverage 25 (above the configured maximum 20), a
position size in the legal range, a loss streak below the limit, no open
position, `current_balance` 900 and `starting_balance` 1000 (10% drawdown,
below the 50% configured limit), `validate` rejects with the leverage-limit
reason — not the drawdown reason. -/
theorem C1_leverage_reason_not_drawdown {P : Type} (d : Decision)
    (losses : ℕ) (sz : ℚ)
    (hact : actionOf d = "BUY" ∨ actionOf d = "SELL")
    (hlev : leverageOf d = 25)
    (hsz : sizePctOf d = sz) (hsz0 : 0 < sz) (hsz90 : sz ≤ 90)
    (hloss : losses < 12) :
    validate 1000 losses d 900 ([] : List P) = (false, Reason.leverageLimit) := by
  have hdd : drawdown_pct 1000 900 = 10 := by norm_num [drawdown_pct]
  have hne : actionOf d ≠ "HOLD" := by
    rcases hact with h | h <;> simp [h]
  have hnc : actionOf d ≠ "CLOSE" := by
    rcases hact with h | h <;> simp [h]
  rw [validate, if_neg hne, if_neg hnc, hdd]
  rw [if_neg (by norm_num [MAX_DRAWDOWN_PCT])]
  rw [if_neg (by simp only [MAX_CONSECUTIVE_LOSSES]; omega :
    ¬ MAX_CONSECUTIVE_LOSSES ≤ losses)]
  rw [if_neg (by simp)]
  rw [hsz, if_neg (by norm_num [MAX_POSITION_SIZE_PCT] ; linarith)]
  rw [if_neg (by linarith)]
  rw [hlev, if_pos (by norm_num [MAX_LEVERAGE])]

/-- Closed instantiation of `C1_leverage_reason_not_drawdown` at a concrete
BUY decision (size 50, leverage 25, confidence 0.9) and a fresh gate. -/
theorem C1_witness :
    validate 1000 0
      (Decision.mk (some "BUY") (some 50) (some 25) (some (9/10)) (some 100)
        (some 200)) 900 ([] : List Unit) = (false, Reason.leverageLimit) :=
  C1_leverage_reason_not_drawdown
    (Decision.mk (some "BUY") (some 50) (some 25) (some (9/10)) (some 100)
      (some 200))
    0 50 (Or.inl (by decide)) (by decide) (by decide) (by norm_num)
    (by norm_num) (by norm_num)

/-- C2 counterexample: the claim quantifies over all decisions including
action HOLD, but a HOLD decision with leverage 25 (above the configured
maximum 20) is allowed — `validate` returns `true` before ever reaching the
leverage check. -/
theorem C2_counterexample :
    leverageOf (Decision.mk (some "HOLD") (some 50) (some 25) (some 1)
        (some 100) (some 200)) > MAX_LEVERAGE ∧
    (validate 1000 0
      (Decision.mk (some "HOLD") (some 50) (some 25) (some 1) (some 100)
        (some 200)) 1000 ([] : List Unit)).1 = true := by
  constructor
  · decide
  · decide

/-- C2 (amended): for every decision whose action is neither HOLD nor CLOSE
and whose leverage exceeds the configured maximum, `validate` returns
`allowed = false`, regardless of confidence, position size, balances, loss
streak or open positions (whichever check fires first, every rejecting
branch carries `false`, and approval requires leverage ≤ the maximum). -/
theorem C2_amended {P : Type} (starting_balance : ℚ) (losses : ℕ)
    (d : Decision) (current_balance : ℚ) (open_positions : List P)
    (hhold : actionOf d ≠ "HOLD") (hclose : actionOf d ≠ "CLOSE")
    (hlev : leverageOf d > MAX_LEVERAGE) :
    (validate starting_balance losses d current_balance open_positions).1
      = false := by
  rw [validate, if_neg hhold, if_neg hclose]
  split_ifs <;> rfl

/-- Closed instantiation of `C2_amended`: a SELL decision with leverage 21
is rejected whatever the rest of its fields say. -/
theorem C2_witness :
    (validate 1000 0
      (Decision.mk (some "SELL") (some 10) (some 21) (some 1) (some 100)
        (some 200)) 1000 ([] : List Unit)).1 = false :=
  C2_amended 1000 0
    (Decision.mk (some "SELL") (some 10) (some 21) (some 1) (some 100)
      (some 200))
    1000 [] (by decide) (by decide) (by decide)

/-- C3: `record_trade_result` increments the consecutive-loss counter on a
negative realized pnl and resets it to zero on any non-negative pnl
(including zero); in particular the recorded scenario −50, −20, +10 drives
the counter 0 → 1 → 2 → 0. -/
theorem C3_record_trade_result :
    (∀ pnl : ℚ, ∀ n : ℕ,
      record_trade_result pnl n = if pnl < 0 then n + 1 else 0) ∧
    record_trade_result (-50) 0 = 1 ∧
    record_trade_result (-20) (record_trade_result (-50) 0) = 2 ∧
    record_trade_result 10
      (record_trade_result (-20) (record_trade_result (-50) 0)) = 0 ∧
    record_trade_result 0 2 = 0 := by
  refine ⟨fun pnl n => rfl, by decide, by decide, by decide, by decide⟩

/-- C10 (implicit): a decision dict with no "action" key defaults to HOLD,
so `validate` returns `allowed = true` with the HOLD reason regardless of
every other decision field, the balances, the loss streak and the open
positions — none of the later checks is examined. -/
theorem C10_missing_action_is_hold {P : Type} (starting_balance : ℚ)
    (losses : ℕ) (d : Decision) (current_balance : ℚ)
    (open_positions : List P) (hnone : d.action = none) :
    validate starting_balance losses d current_balance open_positions
      = (true, Reason.holdOk) := by
  have ha : actionOf d = "HOLD" := by rw [actionOf, hnone]
  rw [validate, if_pos ha]

/-- Closed instantiation of `C10_missing_action_is_hold` at a decision with
no action key, huge leverage, zero confidence, deep drawdown, a long loss
streak and an open position. -/
theorem C10_witness :
    validate 1000 99
      (Decision.mk none (some 500) (some 100) (some 0) (some 0) (some 0))
      1 [()] = (true, Reason.holdOk) :=
  C10_missing_action_is_hold 1000 99
    (Decision.mk none (some 500) (some 100) (some 0) (some 0) (some 0))
    1 [()] rfl

end Risk

namespace WsStream

/-! ## Streaming state (`src/ws_stream.py`)

The candle-close portion of the module `_state` dict is modelled by
`WsState`; the two tracked intervals (5m and 1m) by `Interval`.  The kline
branch of `_on_message` (lines 155-163, the `k["x"]` true case) and the
acknowledgement functions mutate this state; `isCandleClosed` packages
`is_candle_closed` / `is_1m_candle_closed` (lines 66-79) over the interval. -/

inductive Interval where
  | i5m
  | i1m
deriving DecidableEq

/-- The four candle-close fields of the `_state` dict (src/ws_stream.py
lines 26-29). -/
structure WsState where
  kline_5m_closed : Bool
  kline_5m_close_ack : Bool
  kline_1m_closed : Bool
  kline_1m_close_ack : Bool
deriving DecidableEq

/-- Initial `_state`: closed = False, ack = True for both intervals. -/
def initState : WsState :=
  { kline_5m_closed := false, kline_5m_close_ack := true
    kline_1m_closed := false, kline_1m_close_ack := true }

/-- `is_candle_closed` / `is_1m_candle_closed` (src/ws_stream.py lines
66-79): the flag is set and not yet acknowledged. -/
def isCandleClosed : Interval → WsState → Bool
  | Interval.i5m, s => s.kline_5m_closed && !s.kline_5m_close_ack
  | Interval.i1m, s => s.kline_1m_closed && !s.kline_1m_close_ack

/-- `ack_candle_close` / `ack_1m_candle_close` (src/ws_stream.py lines
71-85): set the ack flag for the interval. -/
def ackCandleClose : Interval → WsState → WsState
  | Interval.i5m, s => { s with kline_5m_close_ack := true }
  | Interval.i1m, s => { s with kline_1m_close_ack := true }

/-- The close-signalling tail of the `_on_message` kline branch
(src/ws_stream.py lines 155-163) when `k["x"]` is true and the message's
interval matches: closed := True, ack := False. -/
def onKlineClosed : Interval → WsState → WsState
  | Interval.i5m, s => { s with kline_5m_closed := true, kline_5m_close_ack := false }
  | Interval.i1m, s => { s with kline_1m_closed := true, kline_1m_close_ack := false }

/-- Events that touch the candle-close flags: a closed-kline message for an
interval (a close event), or an acknowledgement by the orchestrator. -/
inductive WsEvent where
  | klineClosed (i : Interval)
  | ackClose (i : Interval)
deriving DecidableEq

/-- One event applied to the shared state. -/
def stepEvent (s : WsState) : WsEvent → WsState
  | WsEvent.klineClosed i => onKlineClosed i s
  | WsEvent.ackClose i => ackCandleClose i s

/-- A sequence of events applied in order. -/
def runEvents (s : WsState) (evs : List WsEvent) : WsState :=
  evs.foldl stepEvent s

/-- Aggregated-trade entry appended by the `aggTrade` branch of
`_on_message` (src/ws_stream.py lines 166-177): timestamp in ms, quantity,
and the buy-side boolean (`not is_buyer_maker`). -/
structure AggTrade where
  ts : ℚ
  qty : ℚ
  is_buy : Bool
deriving DecidableEq

/-- Flow classification strings of `get_realtime_flow`. -/
inductive FlowClass where
  | buyFlow
  | sellFlow
  | neutral
deriving DecidableEq

/-- Result dict of `get_realtime_flow` (src/ws_stream.py lines 101-123).
The Python rounds `buy_vol`/`sell_vol`/`buy_pct` for display only; the
comparisons deciding `flow` use the unrounded sums modelled here. -/
structure FlowResult where
  buy_vol : ℚ
  sell_vol : ℚ
  buy_pct : ℚ
  trade_count : ℕ
  flow : FlowClass
deriving DecidableEq

/-- Loop body of `get_realtime_flow`: accumulate (buy volume, sell volume,
count) over one buffered trade, counting it only when `trade.ts >= cutoff`. -/
def flowStep (cutoff : ℚ) (acc : ℚ × ℚ × ℕ) (t : AggTrade) : ℚ × ℚ × ℕ :=
  if cutoff ≤ t.ts then
    if t.is_buy then (acc.1 + t.qty, acc.2.1, acc.2.2 + 1)
    else (acc.1, acc.2.1 + t.qty, acc.2.2 + 1)
  else acc

/-- `get_realtime_flow` (src/ws_stream.py lines 101-123) with the clock and
the trade buffer passed explicitly. -/
def get_realtime_flow (now : ℚ) (trades : List AggTrade) : FlowResult :=
  let cutoff := now - 10000
  let acc := trades.foldl (flowStep cutoff) (0, 0, 0)
  { buy_vol := acc.1
    sell_vol := acc.2.1
    buy_pct := if acc.1 + acc.2.1 > 0 then acc.1 / (acc.1 + acc.2.1) * 100 else 50
    trade_count := acc.2.2
    flow :=
      if acc.1 > acc.2.1 * (12/10) then FlowClass.buyFlow
      else if acc.2.1 > acc.1 * (12/10) then FlowClass.sellFlow
      else FlowClass.neutral }

/-- C8: for each tracked interval, a close event makes `is_candle_closed`
true; acknowledging makes it false; it stays false under any further events
that are not a close event for that interval; and a second close event
before acknowledgment overwrites the flag (the state after two close events
equals the state after one — lossy coalescing, not a queue), so a single
acknowledgment clears both. -/
theorem C8_candle_close_flags (s : WsState) (i : Interval) :
    isCandleClosed i (onKlineClosed i s) = true ∧
    isCandleClosed i (ackCandleClose i s) = false ∧
    onKlineClosed i (onKlineClosed i s) = onKlineClosed i s ∧
    isCandleClosed i (ackCandleClose i (onKlineClosed i (onKlineClosed i s)))
      = false ∧
    (∀ evs : List WsEvent, (∀ e ∈ evs, e ≠ WsEvent.klineClosed i) →
      isCandleClosed i (runEvents (ackCandleClose i s) evs) = false) := by
  refine ⟨?_, ?_, ?_, ?_, ?_⟩
  · cases i <;> simp [isCandleClosed, onKlineClosed]
  · cases i <;> simp [isCandleClosed, ackCandleClose]
  · cases i <;> simp [onKlineClosed]
  · cases i <;> simp [isCandleClosed, ackCandleClose, onKlineClosed]
  · intro evs hevs
    have key : ∀ (t : WsState), isCandleClosed i t = false →
        ∀ (l : List WsEvent), (∀ e ∈ l, e ≠ WsEvent.klineClosed i) →
        isCandleClosed i (runEvents t l) = false := by
      intro t ht l
      induction l generalizing t with
      | nil => intro _; simpa [runEvents] using ht
      | cons e rest ih =>
        intro hl
        have he : e ≠ WsEvent.klineClosed i := hl e (by simp)
        have hrest : ∀ e ∈ rest, e ≠ WsEvent.klineClosed i := by
          intro x hx; exact hl x (by simp [hx])
        have hstep : isCandleClosed i (stepEvent t e) = false := by
          cases e with
          | klineClosed j =>
            have hij : j ≠ i := by
              intro h; exact he (by rw [h])
            cases i <;> cases j <;>
              simp_all [isCandleClosed, stepEvent, onKlineClosed]
          | ackClose j =>
            cases i <;> cases j <;>
              simp_all [isCandleClosed, stepEvent, ackCandleClose]
        simpa [runEvents] using ih (stepEvent t e) hstep hrest
    have hack : isCandleClosed i (ackCandleClose i s) = false := by
      cases i <;> simp [isCandleClosed, ackCandleClose]
    exact key (ackCandleClose i s) hack evs hevs

/-- Closed instantiation of `C8_candle_close_flags` at the initial state and
the 5m interval, exercising the trace clause on a 1m close followed by a 5m
acknowledgment. -/
theorem C8_witness :
    isCandleClosed Interval.i5m (onKlineClosed Interval.i5m initState) = true ∧
    isCandleClosed Interval.i5m
      (runEvents (ackCandleClose Interval.i5m initState)
        [WsEvent.klineClosed Interval.i1m, WsEvent.ackClose Interval.i5m])
      = false :=
  ⟨(C8_candle_close_flags initState Interval.i5m).1,
   (C8_candle_close_flags initState Interval.i5m).2.2.2.2
     [WsEvent.klineClosed Interval.i1m, WsEvent.ackClose Interval.i5m]
     (by decide)⟩

/-- C9: `get_realtime_flow` counts only trades inside the trailing 10000 ms
window — on a buffer whose trades are all strictly older than
`now - 10000`, it reports zero buy volume, zero sell volume, zero trades,
and (since neither `buy > 1.2*sell` nor `sell > 1.2*buy` holds at 0/0) the
NEUTRAL flow classification. -/
theorem C9_stale_trades_neutral (now : ℚ) (trades : List AggTrade)
    (hold : ∀ t ∈ trades, t.ts < now - 10000) :
    (get_realtime_flow now trades).buy_vol = 0 ∧
    (get_realtime_flow now trades).sell_vol = 0 ∧
    (get_realtime_flow now trades).trade_count = 0 ∧
    (get_realtime_flow now trades).flow = FlowClass.neutral := by
  have hfold : trades.foldl (flowStep (now - 10000)) (0, 0, 0) = (0, 0, 0) := by
    have key : ∀ (l : List AggTrade), (∀ t ∈ l, t.ts < now - 10000) →
        ∀ acc : ℚ × ℚ × ℕ, l.foldl (flowStep (now - 10000)) acc = acc := by
      intro l
      induction l with
      | nil => intro _ acc; rfl
      | cons t rest ih =>
        intro hl acc
        have ht : t.ts < now - 10000 := hl t (by simp)
        have hstep : flowStep (now - 10000) acc t = acc := by
          rw [flowStep, if_neg (by linarith)]
        rw [List.foldl_cons, hstep]
        exact ih (fun x hx => hl x (by simp [hx])) acc
    exact key trades hold (0, 0, 0)
  rw [get_realtime_flow]
  simp only [hfold]
  norm_num

/-- Closed instantiation of `C9_stale_trades_neutral`: with the clock at
20000 ms, a buffer holding one buy of quantity 5 at 1000 ms and one sell of
quantity 3 at 9999 ms (both older than the 10000 ms window) yields zero
volumes, zero count and NEUTRAL flow. -/
theorem C9_witness :
    (get_realtime_flow 20000
      [AggTrade.mk 1000 5 true, AggTrade.mk 9999 3 false]).trade_count = 0 ∧
    (get_realtime_flow 20000
      [AggTrade.mk 1000 5 true, AggTrade.mk 9999 3 false]).flow
      = FlowClass.neutral :=
  ⟨(C9_stale_trades_neutral 20000
      [AggTrade.mk 1000 5 true, AggTrade.mk 9999 3 false]
      (by intro t ht; fin_cases ht <;> norm_num)).2.2.1,
   (C9_stale_trades_neutral 20000
      [AggTrade.mk 1000 5 true, AggTrade.mk 9999 3 false]
      (by intro t ht; fin_cases ht <;> norm_num)).2.2.2⟩

end WsStream

namespace Multi

/-! ## Multi-timeframe aggregator (`src/data.py`, `fetch_multi_timeframe`)

The loop body of `fetch_multi_timeframe` performs network I/O
(`fetch_candles`) and pandas computation (`compute_indicators` plus the
summary-dict construction), any of which may raise; the surrounding
`try/except` stores `{"error": str(exc)}` for that label only.  The body is
embedded as a function into `Except String α`: `Except.error` models a
raised exception, `Except.ok` the computed per-timeframe summary dict. -/

/-- A value of the result mapping: either a computed summary or the
`{"error": str(exc)}` marker. -/
inductive TfEntry (α : Type) where
  | entry (a : α)
  | errorMarker (msg : String)
deriving DecidableEq

/-- The fixed `(tf, label, limit)` list of `fetch_multi_timeframe`
(src/data.py lines 182-188). -/
def tfConfigs : List (String × String × ℕ) :=
  [("1m", "1m", 60), ("5m", "5m", 100), ("15m", "15m", 60),
   ("1h", "1h", 50), ("4h", "4h", 50)]

/-- `fetch_multi_timeframe` (src/data.py lines 178-227): for each configured
timeframe run the fallible body; a failure is captured as an error marker
for that label only. -/
def fetch_multi_timeframe {α : Type}
    (body : String → ℕ → Except String α) : List (String × TfEntry α) :=
  tfConfigs.map (fun c =>
    (c.2.1, match body c.1 c.2.2 with
      | Except.ok a => TfEntry.entry a
      | Except.error e => TfEntry.errorMarker e))

/-- C7: whatever the fallible per-timeframe body does, the aggregator
returns an entry for every one of its five configured labels, in order; a
timeframe whose body raises maps to the error marker carrying the message,
and a timeframe whose body succeeds maps to its computed entry — failures
never remove or block another label. -/
theorem C7_aggregator_isolation {α : Type}
    (body : String → ℕ → Except String α) :
    ((fetch_multi_timeframe body).map Prod.fst
       = ["1m", "5m", "15m", "1h", "4h"]) ∧
    (∀ tf label lim, (tf, label, lim) ∈ tfConfigs →
      (∀ e, body tf lim = Except.error e →
        (fetch_multi_timeframe body).lookup label
          = some (TfEntry.errorMarker e)) ∧
      (∀ a, body tf lim = Except.ok a →
        (fetch_multi_timeframe body).lookup label
          = some (TfEntry.entry a))) := by
  constructor
  · simp [fetch_multi_timeframe, tfConfigs]
  · intro tf label lim hmem
    have hcases :
        (tf, label, lim) = ("1m", "1m", 60) ∨
        (tf, label, lim) = ("5m", "5m", 100) ∨
        (tf, label, lim) = ("15m", "15m", 60) ∨
        (tf, label, lim) = ("1h", "1h", 50) ∨
        (tf, label, lim) = ("4h", "4h", 50) := by
      simpa [tfConfigs] using hmem
    rcases hcases with h | h | h | h | h <;>
      (injection h with h1 h2; injection h2 with h2 h3; subst h1; subst h2;
       subst h3) <;>
      exact ⟨fun e he => by
               simp [fetch_multi_timeframe, tfConfigs, he, List.lookup],
             fun a ha => by
               simp [fetch_multi_timeframe, tfConfigs, ha, List.lookup]⟩

/-- Closed instantiation of `C7_aggregator_isolation` with a body that
raises on the 5m timeframe only: the 5m label carries the error marker while
the 15m label still carries its computed entry. -/
theorem C7_witness :
    (fetch_multi_timeframe (fun tf _ =>
        if tf = "5m" then Except.error ("boom") else Except.ok 7)).lookup
      ("5m") = some (TfEntry.errorMarker ("boom")) ∧
    (fetch_multi_timeframe (fun tf _ =>
        if tf = "5m" then Except.error ("boom") else Except.ok 7)).lookup
      ("15m") = some (TfEntry.entry 7) :=
  ⟨((C7_aggregator_isolation (fun tf _ =>
        if tf = "5m" then Except.error ("boom") else Except.ok (7 : ℕ))).2
      "5m" "5m" 100 (by decide)).1 ("boom") (by rfl),
   ((C7_aggregator_isolation (fun tf _ =>
        if tf = "5m" then Except.error ("boom") else Except.ok (7 : ℕ))).2
      "15m" "15m" 60 (by decide)).2 7 (by rfl)⟩

end Multi

namespace Indicators

/-! ## Indicator pipeline (`src/data.py`, `compute_indicators`)

The claims touch only the columns computed from `close`: the RSI-14
pipeline, the stochastic RSI and the Bollinger bands.  A pandas series cell
is `Option ℚ` with `none` standing for `NaN`.

`ewm(alpha, min_periods, adjust=False)` keeps the running value
`y ← (1-alpha)*y + alpha*x` over non-NaN inputs, emitting `NaN` until
`min_periods` non-NaN observations have been seen; on a NaN input the
running value is unchanged and re-emitted (subject to the same
`min_periods` mask).  In this pipeline the only NaN input is the leading
`diff()` cell, where no prior value exists, so the carried value is `none`
and the emitted cell is `none` under every pandas NaN convention.

`rolling(w)` uses the pandas default `min_periods = w` counting non-NaN
cells, so a window that is short or contains a NaN yields NaN. -/

/-- A series cell: `none` models a pandas NaN. -/
abbrev Cell := Option ℚ

/-- `df["close"].diff()`: leading NaN, then successive differences. -/
def deltas : List ℚ → List Cell
  | [] => []
  | c :: cs => none :: List.zipWith (fun cur prevC => some (cur - prevC)) cs (c :: cs)

/-- `gain = delta.clip(lower=0)`. -/
def gains (closes : List ℚ) : List Cell :=
  (deltas closes).map (Option.map (fun d => max d 0))

/-- `loss = -delta.clip(upper=0)`. -/
def lossSeries (closes : List ℚ) : List Cell :=
  (deltas closes).map (Option.map (fun d => max (-d) 0))

/-- One update of the `adjust=False` recursion: the first observation seeds
the value, later ones blend `y ← (1-a)*y + a*x`. -/
def ewmStep (a : ℚ) (prev : Option ℚ) (v : ℚ) : ℚ :=
  Option.elim prev v (fun p => (1 - a) * p + a * v)

/-- Recursion of `ewm(alpha=a, min_periods=m, adjust=False).mean()` with the
carried value and the count of non-NaN observations as explicit state. -/
def ewmAux (a : ℚ) (m : ℕ) : List Cell → Option ℚ → ℕ → List Cell
  | [], _, _ => []
  | x :: xs, prev, cnt =>
      Option.elim x
        ((if m ≤ cnt then prev else none) :: ewmAux a m xs prev cnt)
        (fun v =>
          (if m ≤ cnt + 1 then some (ewmStep a prev v) else none) ::
            ewmAux a m xs (some (ewmStep a prev v)) (cnt + 1))

/-- `series.ewm(alpha=a, min_periods=m, adjust=False).mean()`. -/
def ewm (a : ℚ) (m : ℕ) (l : List Cell) : List Cell := ewmAux a m l none 0

/-- `avg_gain = gain.ewm(alpha=1/14, min_periods=14, adjust=False).mean()`. -/
def avg_gain (closes : List ℚ) : List Cell := ewm (1/14) 14 (gains closes)

/-- `avg_loss = loss.ewm(alpha=1/14, min_periods=14, adjust=False).mean()`. -/
def avg_loss (closes : List ℚ) : List Cell := ewm (1/14) 14 (lossSeries closes)

/-- One cell of `rsi14`: `rs = avg_gain / avg_loss.replace(0, nan)` then
`100 - 100/(1 + rs)`; a zero average loss becomes NaN and propagates. -/
def rsiCell : Cell → Cell → Cell
  | some g, some l => if l = 0 then none else some (100 - 100 / (1 + g / l))
  | _, _ => none

/-- `df["rsi14"]` (src/data.py lines 85-92). -/
def rsi14 (closes : List ℚ) : List Cell :=
  List.zipWith rsiCell (avg_gain closes) (avg_loss closes)

/-- Sequence a window of cells: `some` of the values iff no NaN occurs. -/
def seqCells : List Cell → Option (List ℚ)
  | [] => some []
  | none :: _ => none
  | some v :: xs => (seqCells xs).map (fun vs => v :: vs)

/-- The window of the trailing `w` positions ending at index `i`. -/
def window (w i : ℕ) (l : List α) : List α := (l.take (i + 1)).drop (i + 1 - w)

/-- `series.rolling(w).agg(f)` with the pandas default
`min_periods = w`: NaN while fewer than `w` rows exist or the window
contains a NaN. -/
def rollingO (w : ℕ) (f : List ℚ → ℚ) (l : List Cell) : List Cell :=
  (List.range l.length).map (fun i =>
    if i + 1 < w then none else (seqCells (window w i l)).map f)

/-- Minimum of a window (windows passed by `rollingO` are nonempty). -/
def listMin : List ℚ → ℚ
  | [] => 0
  | x :: xs => xs.foldl min x

/-- Maximum of a window. -/
def listMax : List ℚ → ℚ
  | [] => 0
  | x :: xs => xs.foldl max x

/-- Arithmetic mean of a window. -/
def listMean (l : List ℚ) : ℚ := l.sum / l.length

/-- `rsi_min = rsi.rolling(14).min()`. -/
def rsi_min (closes : List ℚ) : List Cell := rollingO 14 listMin (rsi14 closes)

/-- `rsi_max = rsi.rolling(14).max()`. -/
def rsi_max (closes : List ℚ) : List Cell := rollingO 14 listMax (rsi14 closes)

/-- Three-way zip, truncating at the shortest list. -/
def zipW3 (f : α → β → γ → δ) : List α → List β → List γ → List δ
  | a :: as, b :: bs, c :: cs => f a b c :: zipW3 f as bs cs
  | _, _, _ => []

/-- One cell of `stoch_rsi`: `(rsi - rsi_min) / (rsi_max - rsi_min).replace(0,
nan)`; a degenerate window range becomes NaN and propagates. -/
def stochCell : Cell → Cell → Cell → Cell
  | some r, some mn, some mx =>
      if mx - mn = 0 then none else some ((r - mn) / (mx - mn))
  | _, _, _ => none

/-- `stoch_rsi` (src/data.py line 98). -/
def stoch_rsi (closes : List ℚ) : List Cell :=
  zipW3 stochCell (rsi14 closes) (rsi_min closes) (rsi_max closes)

/-- `df["stoch_rsi_k"] = stoch_rsi.rolling(3).mean() * 100`
(src/data.py line 99). -/
def stoch_rsi_k (closes : List ℚ) : List Cell :=
  (rollingO 3 listMean (stoch_rsi closes)).map (Option.map (fun v => v * 100))

/-- Lift the close series to cells (no NaN in raw closes). -/
def someCells (closes : List ℚ) : List Cell := closes.map some

/-- Sample variance with the pandas `std` default `ddof = 1` — the square of
what `df["close"].rolling(20).std()` computes for a full window. -/
def sampleVar (l : List ℚ) : ℚ :=
  (l.map (fun x => (x - listMean l) ^ 2)).sum / ((l.length : ℚ) - 1)

/-- Modelled from the spec words (§4.4 Bollinger): population variance, the
square of the 20-period population standard deviation the spec prescribes. -/
def popVar (l : List ℚ) : ℚ :=
  (l.map (fun x => (x - listMean l) ^ 2)).sum / (l.length : ℚ)

/-- `sma20 = df["close"].rolling(20).mean()`, the `bb_middle` column
(src/data.py lines 117, 120). -/
def bb_middle (closes : List ℚ) : List Cell :=
  rollingO 20 listMean (someCells closes)

/-- Square of `std20 = df["close"].rolling(20).std()` (src/data.py line
118): the rolling sample variance.  The standard deviation itself is
irrational in general, so the development carries its square and compares
band values through `Real.sqrt`. -/
def bb_std20_sq (closes : List ℚ) : List Cell :=
  rollingO 20 sampleVar (someCells closes)

/-- Modelled from the spec words: square of the 20-period population
standard deviation of close. -/
def bb_std20_sq_spec (closes : List ℚ) : List Cell :=
  rollingO 20 popVar (someCells closes)

/-- `df["bb_upper"] = sma20 + 2 * std20` as a function of the two column
cells (src/data.py line 119). -/
def bb_upper_of {α : Type} [Field α] (mid sd : α) : α := mid + 2 * sd

/-- `df["bb_lower"] = sma20 - 2 * std20` (src/data.py line 121). -/
def bb_lower_of {α : Type} [Field α] (mid sd : α) : α := mid - 2 * sd

/-- `df["bb_width"] = (bb_upper - bb_lower) / bb_middle * 100`
(src/data.py line 122). -/
def bb_width_of {α : Type} [Field α] (up lo mid : α) : α :=
  (up - lo) / mid * 100

/-! ### Length bookkeeping -/

theorem ewmAux_length (a : ℚ) (m : ℕ) :
    ∀ (l : List Cell) (prev : Option ℚ) (cnt : ℕ),
      (ewmAux a m l prev cnt).length = l.length := by
  intro l
  induction l with
  | nil => intro prev cnt; rfl
  | cons x xs ih =>
    intro prev cnt
    cases x with
    | none => simp [ewmAux, ih]
    | some v => simp [ewmAux, ih]

theorem ewm_length (a : ℚ) (m : ℕ) (l : List Cell) :
    (ewm a m l).length = l.length := ewmAux_length a m l none 0

theorem deltas_length (closes : List ℚ) :
    (deltas closes).length = closes.length := by
  cases closes with
  | nil => rfl
  | cons c cs => simp [deltas]

theorem gains_length (closes : List ℚ) :
    (gains closes).length = closes.length := by
  simp [gains, deltas_length]

theorem lossSeries_length (closes : List ℚ) :
    (lossSeries closes).length = closes.length := by
  simp [lossSeries, deltas_length]

theorem avg_gain_length (closes : List ℚ) :
    (avg_gain closes).length = closes.length := by
  simp [avg_gain, ewm_length, gains_length]

theorem avg_loss_length (closes : List ℚ) :
    (avg_loss closes).length = closes.length := by
  simp [avg_loss, ewm_length, lossSeries_length]

theorem rsi14_length (closes : List ℚ) :
    (rsi14 closes).length = closes.length := by
  simp [rsi14, avg_gain_length, avg_loss_length]

theorem rollingO_length (w : ℕ) (f : List ℚ → ℚ) (l : List Cell) :
    (rollingO w f l).length = l.length := by
  simp [rollingO]

theorem rsi_min_length (closes : List ℚ) :
    (rsi_min closes).length = closes.length := by
  simp [rsi_min, rollingO_length, rsi14_length]

theorem rsi_max_length (closes : List ℚ) :
    (rsi_max closes).length = closes.length := by
  simp [rsi_max, rollingO_length, rsi14_length]

theorem zipW3_length (f : α → β → γ → δ) :
    ∀ (as : List α) (bs : List β) (cs : List γ),
      (zipW3 f as bs cs).length = min as.length (min bs.length cs.length) := by
  intro as
  induction as with
  | nil => intro bs cs; simp [zipW3]
  | cons a as ih =>
    intro bs cs
    cases bs with
    | nil => simp [zipW3]
    | cons b bs =>
      cases cs with
      | nil => simp [zipW3]
      | cons c cs => simp [zipW3, ih]; omega

theorem stoch_rsi_length (closes : List ℚ) :
    (stoch_rsi closes).length = closes.length := by
  simp [stoch_rsi, zipW3_length, rsi14_length, rsi_min_length, rsi_max_length]

theorem stoch_rsi_k_length (closes : List ℚ) :
    (stoch_rsi_k closes).length = closes.length := by
  simp [stoch_rsi_k, rollingO_length, stoch_rsi_length]

/-! ### Cell access -/

theorem zipWith_get?_some {f : α → β → γ} {as : List α} {bs : List β}
    {i : ℕ} {a : α} {b : β} (ha : as[i]? = some a) (hb : bs[i]? = some b) :
    (List.zipWith f as bs)[i]? = some (f a b) := by
  induction as generalizing bs i with
  | nil => simp at ha
  | cons x xs ih =>
    cases bs with
    | nil => simp at hb
    | cons y ys =>
      cases i with
      | zero =>
        simp at ha hb
        simp [ha, hb]
      | succ j =>
        simp at ha hb
        simpa using ih ha hb

theorem zipW3_get?_some {f : α → β → γ → δ} {as : List α} {bs : List β}
    {cs : List γ} {i : ℕ} {a : α} {b : β} {c : γ}
    (ha : as[i]? = some a) (hb : bs[i]? = some b)
    (hc : cs[i]? = some c) :
    (zipW3 f as bs cs)[i]? = some (f a b c) := by
  induction as generalizing bs cs i with
  | nil => simp at ha
  | cons x xs ih =>
    cases bs with
    | nil => simp at hb
    | cons y ys =>
      cases cs with
      | nil => simp at hc
      | cons z zs =>
        cases i with
        | zero =>
          simp at ha hb hc
          simp [zipW3, ha, hb, hc]
        | succ j =>
          simp at ha hb hc
          simpa [zipW3] using ih ha hb hc

theorem mem_zipWith_exists {f : α → β → γ} {as : List α} {bs : List β} {x : γ}
    (h : x ∈ List.zipWith f as bs) :
    ∃ a b, a ∈ as ∧ b ∈ bs ∧ x = f a b := by
  induction as generalizing bs with
  | nil => simp at h
  | cons y ys ih =>
    cases bs with
    | nil => simp at h
    | cons z zs =>
      simp only [List.zipWith_cons_cons, List.mem_cons] at h
      rcases h with h | h
      · exact ⟨y, z, by simp, by simp, h⟩
      · obtain ⟨a, b, ha, hb, hx⟩ := ih h
        exact ⟨a, b, by simp [ha], by simp [hb], hx⟩

theorem mem_zipW3_exists {f : α → β → γ → δ} {as : List α} {bs : List β}
    {cs : List γ} {x : δ} (h : x ∈ zipW3 f as bs cs) :
    ∃ a b c, a ∈ as ∧ b ∈ bs ∧ c ∈ cs ∧ x = f a b c := by
  induction as generalizing bs cs with
  | nil => simp [zipW3] at h
  | cons y ys ih =>
    cases bs with
    | nil => simp [zipW3] at h
    | cons z zs =>
      cases cs with
      | nil => simp [zipW3] at h
      | cons u us =>
        simp only [zipW3, List.mem_cons] at h
        rcases h with h | h
        · exact ⟨y, z, u, by simp, by simp, by simp, h⟩
        · obtain ⟨a, b, c, ha, hb, hc, hx⟩ := ih h
          exact ⟨a, b, c, by simp [ha], by simp [hb], by simp [hc], hx⟩

theorem rollingO_get? (w : ℕ) (f : List ℚ → ℚ) (l : List Cell) (i : ℕ)
    (hi : i < l.length) :
    (rollingO w f l)[i]?
      = some (if i + 1 < w then none else (seqCells (window w i l)).map f) := by
  simp [rollingO, List.getElem?_map, List.getElem?_range, hi]

theorem mem_rollingO {w : ℕ} {f : List ℚ → ℚ} {l : List Cell} {x : Cell}
    (h : x ∈ rollingO w f l) :
    ∃ i, i < l.length ∧
      x = if i + 1 < w then none else (seqCells (window w i l)).map f := by
  simp only [rollingO, List.mem_map, List.mem_range] at h
  obtain ⟨i, hi, hx⟩ := h
  exact ⟨i, hi, hx.symm⟩

theorem seqCells_eq_none_of_mem {l : List Cell} (h : (none : Cell) ∈ l) :
    seqCells l = none := by
  induction l with
  | nil => simp at h
  | cons x xs ih =>
    cases x with
    | none => rfl
    | some v =>
      simp only [List.mem_cons] at h
      rcases h with h | h
      · exact absurd h (by simp)
      · simp [seqCells, ih h]

theorem seqCells_some_length {l : List Cell} {vs : List ℚ}
    (h : seqCells l = some vs) : vs.length = l.length := by
  induction l generalizing vs with
  | nil => simp [seqCells] at h; simp [← h]
  | cons x xs ih =>
    cases x with
    | none => simp [seqCells] at h
    | some v =>
      simp only [seqCells, Option.map_eq_some'] at h
      obtain ⟨ws, hws, hvs⟩ := h
      simp [← hvs, ih hws]

theorem window_length {w i : ℕ} {l : List α} (hw : w ≤ i + 1)
    (hi : i < l.length) : (window w i l).length = w := by
  simp only [window, List.length_drop, List.length_take]
  omega

theorem seqCells_window_eq_none {w i : ℕ} {l : List Cell}
    (hw : 0 < w) (hwi : w ≤ i + 1) (_hi : i < l.length)
    (hnone : l[i + 1 - w]? = some none) :
    seqCells (window w i l) = none := by
  apply seqCells_eq_none_of_mem
  have h1 : (window w i l)[0]? = l[i + 1 - w]? := by
    simp only [window]
    rw [List.getElem?_drop]
    rw [Nat.add_zero]
    exact List.getElem?_take_of_lt (by omega)
  exact List.getElem?_mem (h1.trans hnone)

/-! ### Warm-up masking of the Wilder averages -/

theorem ewmAux_map_some_getElem?_none (a : ℚ) (m : ℕ) :
    ∀ (gl : List ℚ) (prev : Option ℚ) (cnt t : ℕ), t < gl.length →
      cnt + t + 1 < m → (ewmAux a m (gl.map some) prev cnt)[t]? = some none := by
  intro gl
  induction gl with
  | nil => intro prev cnt t ht _; simp at ht
  | cons v vs ih =>
    intro prev cnt t ht hcnt
    cases t with
    | zero =>
      simp only [List.map_cons, ewmAux, Option.elim]
      rw [if_neg (by omega)]
      simp
    | succ u =>
      simp only [List.map_cons, ewmAux, Option.elim]
      have := ih (some (ewmStep a prev v)) (cnt + 1) u (by simpa using ht)
        (by omega)
      simpa using this

theorem ewm_noneCons_getElem?_none (a : ℚ) (m : ℕ) (gl : List ℚ) (j : ℕ)
    (hj : j < m) (hm : 0 < m) (hlen : j < gl.length + 1) :
    (ewm a m ((none : Cell) :: gl.map some))[j]? = some none := by
  rw [ewm]
  simp only [ewmAux, Option.elim]
  rw [if_neg (by omega)]
  cases j with
  | zero => simp
  | succ t =>
    have := ewmAux_map_some_getElem?_none a m gl none 0 t (by omega) (by omega)
    simpa using this

theorem gains_shape (c : ℚ) (cs : List ℚ) :
    gains (c :: cs)
      = (none : Cell) ::
        (List.zipWith (fun cur prevC => max (cur - prevC) 0) cs (c :: cs)).map
          some := by
  simp only [gains, deltas, List.map_cons, List.map_zipWith]
  rfl

theorem lossSeries_shape (c : ℚ) (cs : List ℚ) :
    lossSeries (c :: cs)
      = (none : Cell) ::
        (List.zipWith (fun cur prevC => max (-(cur - prevC)) 0) cs
          (c :: cs)).map some := by
  simp only [lossSeries, deltas, List.map_cons, List.map_zipWith]
  rfl

theorem avg_gain_getElem?_none (closes : List ℚ) (j : ℕ) (hj : j < 14)
    (hlen : j < closes.length) : (avg_gain closes)[j]? = some none := by
  cases closes with
  | nil => simp at hlen
  | cons c cs =>
    rw [avg_gain, gains_shape]
    exact ewm_noneCons_getElem?_none (1/14) 14 _ j hj (by norm_num)
      (by simpa using hlen)

theorem avg_loss_getElem?_none (closes : List ℚ) (j : ℕ) (hj : j < 14)
    (hlen : j < closes.length) : (avg_loss closes)[j]? = some none := by
  cases closes with
  | nil => simp at hlen
  | cons c cs =>
    rw [avg_loss, lossSeries_shape]
    exact ewm_noneCons_getElem?_none (1/14) 14 _ j hj (by norm_num)
      (by simpa using hlen)

/-- A cell of `rsi14` is NaN while either Wilder average is still warming
up: below index 14 the RSI column is NaN. -/
theorem rsi14_getElem?_none_of_lt (closes : List ℚ) (j : ℕ) (hj : j < 14)
    (hlen : j < closes.length) : (rsi14 closes)[j]? = some none := by
  have hg := avg_gain_getElem?_none closes j hj hlen
  have hlt : j < (avg_loss closes).length := by
    rw [avg_loss_length]; exact hlen
  obtain ⟨y, hy⟩ : ∃ y, (avg_loss closes)[j]? = some y :=
    ⟨(avg_loss closes).get ⟨j, hlt⟩, by
      simp [List.getElem?_eq_getElem hlt]⟩
  rw [rsi14]
  rw [zipWith_get?_some hg hy]
  rfl

/-! ### Nonnegativity of the Wilder averages -/

theorem ewmAux_nonneg {a : ℚ} (ha0 : 0 ≤ a) (ha1 : a ≤ 1) (m : ℕ) :
    ∀ (l : List Cell) (prev : Option ℚ) (cnt : ℕ),
      (∀ y : ℚ, some y ∈ l → 0 ≤ y) →
      (∀ p : ℚ, prev = some p → 0 ≤ p) →
      ∀ x : ℚ, some x ∈ ewmAux a m l prev cnt → 0 ≤ x := by
  intro l
  induction l with
  | nil => intro prev cnt _ _ x hx; simp [ewmAux] at hx
  | cons c cs ih =>
    intro prev cnt hin hprev x hx
    cases c with
    | none =>
      simp only [ewmAux, Option.elim, List.mem_cons] at hx
      rcases hx with hx | hx
      · by_cases hm : m ≤ cnt
        · rw [if_pos hm] at hx; exact hprev x hx.symm
        · rw [if_neg hm] at hx; exact absurd hx.symm (by simp)
      · exact ih prev cnt (fun y hy => hin y (by simp [hy])) hprev x hx
    | some v =>
      have hv : 0 ≤ v := hin v (by simp)
      have hstep : 0 ≤ ewmStep a prev v := by
        cases hp : prev with
        | none => simpa [ewmStep]
        | some p =>
          have hp0 : 0 ≤ p := hprev p hp
          simp only [ewmStep, Option.elim]
          have h1 : 0 ≤ (1 - a) * p := mul_nonneg (by linarith) hp0
          have h2 : 0 ≤ a * v := mul_nonneg ha0 hv
          linarith
      simp only [ewmAux, Option.elim, List.mem_cons] at hx
      rcases hx with hx | hx
      · by_cases hm : m ≤ cnt + 1
        · rw [if_pos hm] at hx
          have hxe : x = ewmStep a prev v := Option.some.inj hx
          rw [hxe]; exact hstep
        · rw [if_neg hm] at hx; exact absurd hx.symm (by simp)
      · exact ih (some (ewmStep a prev v)) (cnt + 1)
          (fun y hy => hin y (by simp [hy]))
          (fun p hp => (Option.some.inj hp) ▸ hstep)
          x hx

theorem gains_mem_nonneg (closes : List ℚ) :
    ∀ y : ℚ, some y ∈ gains closes → 0 ≤ y := by
  intro y hy
  simp only [gains, List.mem_map] at hy
  obtain ⟨o, _, ho⟩ := hy
  rw [Option.map_eq_some'] at ho
  obtain ⟨d, _, hd⟩ := ho
  rw [← hd]
  exact le_max_right d 0

theorem lossSeries_mem_nonneg (closes : List ℚ) :
    ∀ y : ℚ, some y ∈ lossSeries closes → 0 ≤ y := by
  intro y hy
  simp only [lossSeries, List.mem_map] at hy
  obtain ⟨o, _, ho⟩ := hy
  rw [Option.map_eq_some'] at ho
  obtain ⟨d, _, hd⟩ := ho
  rw [← hd]
  exact le_max_right (-d) 0

theorem avg_gain_mem_nonneg (closes : List ℚ) :
    ∀ g : ℚ, some g ∈ avg_gain closes → 0 ≤ g := by
  intro g hg
  exact ewmAux_nonneg (by norm_num) (by norm_num) 14 (gains closes) none 0
    (gains_mem_nonneg closes) (by simp) g hg

theorem avg_loss_mem_nonneg (closes : List ℚ) :
    ∀ l : ℚ, some l ∈ avg_loss closes → 0 ≤ l := by
  intro l hl
  exact ewmAux_nonneg (by norm_num) (by norm_num) 14 (lossSeries closes) none 0
    (lossSeries_mem_nonneg closes) (by simp) l hl

/-- Strictly increasing 15-candle close series: every difference is a gain,
so the Wilder-smoothed average loss is exactly zero at the last index. -/
def rsiCx : List ℚ := [1, 2, 3, 4, 5, 6, 7, 8, 9, 10, 11, 12, 13, 14, 15]

/-- C4 counterexample: on a strictly increasing 15-candle history the
Wilder-smoothed average loss is zero at the last index, and there the code's
`rsi14` cell is NaN (modelled `none`) — `avg_loss.replace(0, nan)` turns the
zero into NaN before the division — so `rsi14` is neither 100 nor a value in
[0, 100] as the claim requires. -/
theorem C4_counterexample :
    rsiCx.length = 15 ∧
    (avg_loss rsiCx).getLast? = some (some 0) ∧
    (rsi14 rsiCx).getLast? = some none ∧
    (rsi14 rsiCx).getLast? ≠ some (some 100) := by
  refine ⟨by decide, ?_, ?_, ?_⟩
  · with_unfolding_all decide
  · with_unfolding_all decide
  · with_unfolding_all decide

/-- C4 (amended): every non-NaN `rsi14` value lies in [0, 100] (in fact in
[0, 100)); but whenever the Wilder-smoothed average loss is zero — e.g. a
non-decreasing close series — the `rsi14` cell is NaN (`none`), not 100:
the code replaces a zero average loss by NaN and lets it propagate. -/
theorem C4_rsi_range_and_zero_loss :
    (∀ (closes : List ℚ) (r : ℚ),
      some r ∈ rsi14 closes → 0 ≤ r ∧ r ≤ 100) ∧
    (∀ (closes : List ℚ) (j : ℕ),
      (avg_loss closes)[j]? = some (some 0) →
      (rsi14 closes)[j]? = some none) := by
  constructor
  · intro closes r hmem
    obtain ⟨a, b, ha, hb, hr⟩ := mem_zipWith_exists hmem
    cases a with
    | none => simp [rsiCell] at hr
    | some g =>
      cases b with
      | none => simp [rsiCell] at hr
      | some l =>
        rw [rsiCell] at hr
        by_cases hl0 : l = 0
        · rw [if_pos hl0] at hr; simp at hr
        · rw [if_neg hl0] at hr
          have hrv : r = 100 - 100 / (1 + g / l) := by
            simpa using hr
          have hg : 0 ≤ g := avg_gain_mem_nonneg closes g ha
          have hl : 0 < l :=
            lt_of_le_of_ne (avg_loss_mem_nonneg closes l hb)
              (fun h => hl0 h.symm)
          have hq : 0 ≤ g / l := div_nonneg hg (le_of_lt hl)
          have hden : (0 : ℚ) < 1 + g / l := by linarith
          have hle : 100 / (1 + g / l) ≤ 100 :=
            div_le_self (by norm_num) (by linarith)
          have hpos : 0 < 100 / (1 + g / l) := by positivity
          constructor <;> rw [hrv] <;> linarith
  · intro closes j hj
    have hlt : j < (avg_gain closes).length := by
      rw [avg_gain_length]
      have : j < (avg_loss closes).length := by
        by_contra h
        rw [List.getElem?_eq_none (by omega)] at hj
        exact absurd hj (by simp)
      rwa [avg_loss_length] at this
    obtain ⟨x, hx⟩ : ∃ x, (avg_gain closes)[j]? = some x :=
      ⟨(avg_gain closes).get ⟨j, hlt⟩, by simp [List.getElem?_eq_getElem hlt]⟩
    rw [rsi14, zipWith_get?_some hx hj]
    cases x with
    | none => rfl
    | some g => simp [rsiCell]

/-- A 15-candle history with one initial loss and no gains: the RSI value at
index 14 is exactly 0, witnessing that the range theorem's hypotheses are
satisfiable. -/
def rsiW : List ℚ := [2, 1, 1, 1, 1, 1, 1, 1, 1, 1, 1, 1, 1, 1, 1]

/-- Closed instantiation of `C4_rsi_range_and_zero_loss`: the concrete RSI
value 0 produced on `rsiW` lies in [0, 100], and on the increasing series
`rsiCx` the zero average loss at index 14 forces a NaN RSI cell. -/
theorem C4_witness :
    (0 ≤ (0 : ℚ) ∧ (0 : ℚ) ≤ 100) ∧ (rsi14 rsiCx)[14]? = some none :=
  ⟨C4_rsi_range_and_zero_loss.1 rsiW 0 (by with_unfolding_all decide),
   C4_rsi_range_and_zero_loss.2 rsiCx 14 (by with_unfolding_all decide)⟩

/-! ### Bollinger bands: sample versus population standard deviation -/

/-- Twenty closes: nineteen zeros and one 20.  The full window has mean 1
and squared-deviation sum 380, so the sample variance (ddof 1, what
`rolling(20).std()` squares to) is 380/19 = 20 while the population
variance the spec prescribes is 380/20 = 19. -/
def bbCx : List ℚ := [0, 0, 0, 0, 0, 0, 0, 0, 0, 0, 0, 0, 0, 0, 0, 0, 0, 0, 0, 20]

/-- C5 counterexample: on `bbCx` the code's rolling std squares to 20
(sample variance, pandas `std()` default `ddof=1`) while the claimed
population std squares to 19; since the band offset is `2 * std` and the
real square root is strictly monotone, the code's `bb_upper`/`bb_lower`
differ from the claimed `middle ± 2 × population std` (the window mean is
1). -/
theorem C5_counterexample :
    (bb_std20_sq bbCx).getLast? = some (some 20) ∧
    (bb_std20_sq_spec bbCx).getLast? = some (some 19) ∧
    bb_upper_of (1 : ℝ) (Real.sqrt 20) ≠ bb_upper_of (1 : ℝ) (Real.sqrt 19) ∧
    bb_lower_of (1 : ℝ) (Real.sqrt 20) ≠ bb_lower_of (1 : ℝ) (Real.sqrt 19) := by
  have hs : Real.sqrt 19 < Real.sqrt 20 :=
    Real.sqrt_lt_sqrt (by norm_num) (by norm_num)
  refine ⟨by with_unfolding_all decide, by with_unfolding_all decide, ?_, ?_⟩
  · simp only [bb_upper_of]
    intro h
    have : Real.sqrt 20 = Real.sqrt 19 := by linarith
    linarith
  · simp only [bb_lower_of]
    intro h
    have : Real.sqrt 20 = Real.sqrt 19 := by linarith
    linarith

/-- C5 (amended): `bb_middle` is the 20-period simple moving average by
construction (`bb_middle` and the width/band formulas are verbatim the code's
column definitions), but the standard deviation in `bb_upper`/`bb_lower` is
the SAMPLE standard deviation (pandas `std()` default `ddof = 1`), not the
population one: on every full window the code's squared std is 20/19 times
the population variance (and both are nonnegative).  The band shape itself
is as claimed: upper and lower are symmetric about the middle at offset
`2 * std`, and `bb_width = (upper − lower)/middle × 100 = 4·std/middle ×
100`. -/
theorem C5_bollinger_sample_std :
    (∀ (closes : List ℚ) (i : ℕ) (v w : ℚ),
      (bb_std20_sq closes)[i]? = some (some v) →
      (bb_std20_sq_spec closes)[i]? = some (some w) →
      v = 20 / 19 * w ∧ 0 ≤ w) ∧
    (∀ mid sd : ℝ,
      bb_upper_of mid sd + bb_lower_of mid sd = 2 * mid ∧
      bb_upper_of mid sd - bb_lower_of mid sd = 4 * sd) ∧
    (∀ mid sd : ℝ, mid ≠ 0 →
      bb_width_of (bb_upper_of mid sd) (bb_lower_of mid sd) mid
        = 4 * sd / mid * 100) := by
  refine ⟨?_, ?_, ?_⟩
  · intro closes i v w hv hw
    have hlen : i < (someCells closes).length := by
      by_contra h
      rw [bb_std20_sq, rollingO] at hv
      rw [List.getElem?_eq_none (by simp; omega)] at hv
      exact absurd hv (by simp)
    rw [bb_std20_sq, rollingO_get? 20 sampleVar _ i hlen] at hv
    rw [bb_std20_sq_spec, rollingO_get? 20 popVar _ i hlen] at hw
    by_cases hw20 : i + 1 < 20
    · rw [if_pos hw20] at hv; simp at hv
    · rw [if_neg hw20] at hv hw
      have hv' := Option.some.inj hv
      have hw' := Option.some.inj hw
      rw [Option.map_eq_some'] at hv' hw'
      obtain ⟨vs, hvs, hsv⟩ := hv'
      rw [hvs] at hw'
      obtain ⟨ws, hws, hpv⟩ := hw'
      have hvw : ws = vs := (Option.some.inj hws).symm
      subst hvw
      have hlen20 : ws.length = 20 := by
        rw [seqCells_some_length hvs, window_length (by omega) hlen]
      have hsum : 0 ≤ (ws.map (fun x => (x - listMean ws) ^ 2)).sum := by
        apply List.sum_nonneg
        intro x hx
        simp only [List.mem_map] at hx
        obtain ⟨y, _, hy⟩ := hx
        rw [← hy]; positivity
      constructor
      · rw [← hsv, ← hpv, sampleVar, popVar, hlen20]
        norm_num
      · rw [← hpv, popVar, hlen20]
        positivity
  · intro mid sd
    constructor <;> simp [bb_upper_of, bb_lower_of] <;> ring
  · intro mid sd hmid
    rw [bb_width_of, bb_upper_of, bb_lower_of]
    field_simp
    ring

/-- Closed instantiation of `C5_bollinger_sample_std` at `bbCx` (index 19:
sample variance 20, population variance 19) and at middle 3, std 2. -/
theorem C5_witness :
    ((20 : ℚ) = 20 / 19 * 19 ∧ (0 : ℚ) ≤ 19) ∧
    bb_width_of (bb_upper_of (3 : ℝ) 2) (bb_lower_of (3 : ℝ) 2) 3
      = 4 * 2 / 3 * 100 :=
  ⟨C5_bollinger_sample_std.1 bbCx 19 20 19 (by with_unfolding_all decide)
      (by with_unfolding_all decide),
   C5_bollinger_sample_std.2.2 3 2 (by norm_num)⟩

/-! ### Stochastic RSI warm-up -/

theorem stochCell_left_none (b c : Cell) : stochCell none b c = none := by
  cases b <;> cases c <;> rfl

theorem stochCell_mid_none (a c : Cell) : stochCell a none c = none := by
  cases a <;> cases c <;> rfl

/-- Below index 27 the rolling 14-window over `rsi14` still overlaps the RSI
warm-up NaNs, so `rsi_min` is NaN there. -/
theorem rsi_min_getElem?_none (closes : List ℚ) (j : ℕ) (hge : 14 ≤ j + 1)
    (hj : j ≤ 26) (hlen : j < closes.length) :
    (rsi_min closes)[j]? = some none := by
  have hlen14 : j < (rsi14 closes).length := by rw [rsi14_length]; exact hlen
  rw [rsi_min, rollingO_get? 14 listMin _ j hlen14, if_neg (by omega)]
  have hnone : (rsi14 closes)[j + 1 - 14]? = some none :=
    rsi14_getElem?_none_of_lt closes (j + 1 - 14) (by omega) (by omega)
  rw [seqCells_window_eq_none (by norm_num) (by omega) hlen14 hnone]
  rfl

/-- Every `stoch_rsi` cell below index 27 is NaN: the RSI itself is NaN
below 14, and the rolling min still sees warm-up NaNs up to 26. -/
theorem stoch_rsi_getElem?_none (closes : List ℚ) (j : ℕ) (hj : j ≤ 26)
    (hlen : j < closes.length) : (stoch_rsi closes)[j]? = some none := by
  have hlt1 : j < (rsi14 closes).length := by rw [rsi14_length]; exact hlen
  have hlt2 : j < (rsi_min closes).length := by rw [rsi_min_length]; exact hlen
  have hlt3 : j < (rsi_max closes).length := by rw [rsi_max_length]; exact hlen
  obtain ⟨y1, hy1⟩ : ∃ y, (rsi14 closes)[j]? = some y :=
    ⟨(rsi14 closes).get ⟨j, hlt1⟩, by simp [List.getElem?_eq_getElem hlt1]⟩
  obtain ⟨y3, hy3⟩ : ∃ y, (rsi_max closes)[j]? = some y :=
    ⟨(rsi_max closes).get ⟨j, hlt3⟩, by simp [List.getElem?_eq_getElem hlt3]⟩
  by_cases h14 : j < 14
  · have hr := rsi14_getElem?_none_of_lt closes j h14 hlen
    obtain ⟨y2, hy2⟩ : ∃ y, (rsi_min closes)[j]? = some y :=
      ⟨(rsi_min closes).get ⟨j, hlt2⟩, by simp [List.getElem?_eq_getElem hlt2]⟩
    rw [stoch_rsi, zipW3_get?_some hr hy2 hy3, stochCell_left_none]
  · have hmn := rsi_min_getElem?_none closes j (by omega) hj hlen
    rw [stoch_rsi, zipW3_get?_some hy1 hmn hy3, stochCell_mid_none]

/-- For a history shorter than 30 candles every `stoch_rsi_k` cell is NaN:
the index never reaches 29, the first spot where the 3-period mean of
`stoch_rsi` can see a NaN-free window. -/
theorem stoch_rsi_k_all_none_of_short (closes : List ℚ)
    (h : closes.length < 30) : ∀ x ∈ stoch_rsi_k closes, x = none := by
  intro x hx
  rw [stoch_rsi_k] at hx
  obtain ⟨y, hy, hxy⟩ := List.mem_map.mp hx
  suffices hyn : y = none by rw [← hxy, hyn]; rfl
  obtain ⟨i, hi, hval⟩ := mem_rollingO hy
  by_cases h3 : i + 1 < 3
  · rw [if_pos h3] at hval; exact hval
  · rw [if_neg h3] at hval
    have hi' : i < closes.length := by rwa [stoch_rsi_length] at hi
    have hnone : (stoch_rsi closes)[i + 1 - 3]? = some none :=
      stoch_rsi_getElem?_none closes (i + 1 - 3) (by omega) (by omega)
    rw [seqCells_window_eq_none (by norm_num) (by omega) hi hnone] at hval
    simpa using hval

/-! ### Degenerate (constant) histories keep the stochastic RSI NaN -/

theorem deltas_replicate_mem (n : ℕ) (c : ℚ) :
    ∀ x ∈ deltas (List.replicate n c), x = none ∨ x = some 0 := by
  cases n with
  | zero => simp [deltas]
  | succ m =>
    intro x hx
    rw [List.replicate_succ, deltas] at hx
    rcases List.mem_cons.mp hx with hx | hx
    · exact Or.inl hx
    · refine Or.inr ?_
      obtain ⟨a, b, ha, hb, hxy⟩ := mem_zipWith_exists hx
      have ha' : a = c := List.eq_of_mem_replicate ha
      have hb' : b = c := by
        rcases List.mem_cons.mp hb with h | h
        · exact h
        · exact List.eq_of_mem_replicate h
      rw [hxy, ha', hb']
      simp

theorem lossSeries_replicate_mem (n : ℕ) (c : ℚ) :
    ∀ x ∈ lossSeries (List.replicate n c), x = none ∨ x = some 0 := by
  intro x hx
  rw [lossSeries] at hx
  obtain ⟨o, ho, hxo⟩ := List.mem_map.mp hx
  rcases deltas_replicate_mem n c o ho with h | h
  · subst h; exact Or.inl hxo.symm
  · subst h
    refine Or.inr ?_
    rw [← hxo]
    simp

theorem ewmAux_zero_mem (a : ℚ) (m : ℕ) :
    ∀ (l : List Cell) (prev : Option ℚ) (cnt : ℕ),
      (∀ x ∈ l, x = none ∨ x = some 0) →
      (prev = none ∨ prev = some 0) →
      ∀ y ∈ ewmAux a m l prev cnt, y = none ∨ y = some 0 := by
  intro l
  induction l with
  | nil => intro prev cnt _ _ y hy; simp [ewmAux] at hy
  | cons x xs ih =>
    intro prev cnt hin hprev y hy
    have hxs : ∀ z ∈ xs, z = none ∨ z = some 0 :=
      fun z hz => hin z (by simp [hz])
    cases x with
    | none =>
      simp only [ewmAux, Option.elim, List.mem_cons] at hy
      rcases hy with hy | hy
      · by_cases hm : m ≤ cnt
        · rw [if_pos hm] at hy; rcases hprev with h | h <;> rw [hy, h] <;> simp
        · rw [if_neg hm] at hy; exact Or.inl hy
      · exact ih prev cnt hxs hprev y hy
    | some v =>
      have hv0 : v = 0 := by
        rcases hin (some v) (by simp) with h | h
        · exact absurd h (by simp)
        · simpa using h
      have hstep : ewmStep a prev v = 0 := by
        rcases hprev with h | h <;> rw [h, hv0] <;> simp [ewmStep]
      simp only [ewmAux, Option.elim, List.mem_cons] at hy
      rcases hy with hy | hy
      · by_cases hm : m ≤ cnt + 1
        · rw [if_pos hm, hstep] at hy; exact Or.inr hy
        · rw [if_neg hm] at hy; exact Or.inl hy
      · exact ih (some (ewmStep a prev v)) (cnt + 1) hxs
          (Or.inr (by rw [hstep])) y hy

theorem avg_loss_replicate_mem (n : ℕ) (c : ℚ) :
    ∀ y ∈ avg_loss (List.replicate n c), y = none ∨ y = some 0 := by
  intro y hy
  exact ewmAux_zero_mem (1/14) 14 (lossSeries (List.replicate n c)) none 0
    (lossSeries_replicate_mem n c) (Or.inl rfl) y hy

theorem rsi14_replicate_all_none (n : ℕ) (c : ℚ) :
    ∀ x ∈ rsi14 (List.replicate n c), x = none := by
  intro x hx
  obtain ⟨a, b, _, hb, hxy⟩ := mem_zipWith_exists hx
  rcases avg_loss_replicate_mem n c b hb with hb' | hb' <;> subst hb'
  · rw [hxy]; cases a <;> rfl
  · rw [hxy]; cases a <;> simp [rsiCell]

theorem rollingO_all_none (w : ℕ) (f : List ℚ → ℚ) (l : List Cell)
    (hw : 0 < w) (hall : ∀ x ∈ l, x = none) :
    ∀ y ∈ rollingO w f l, y = none := by
  intro y hy
  obtain ⟨i, hi, hval⟩ := mem_rollingO hy
  by_cases hcase : i + 1 < w
  · rw [if_pos hcase] at hval; exact hval
  · rw [if_neg hcase] at hval
    have hlt : i + 1 - w < l.length := by omega
    obtain ⟨z, hz⟩ : ∃ z, l[i + 1 - w]? = some z :=
      ⟨l.get ⟨_, hlt⟩, by simp [List.getElem?_eq_getElem hlt]⟩
    have hzn : z = none := hall z (List.getElem?_mem hz)
    rw [seqCells_window_eq_none hw (by omega) hi (by rw [hz, hzn])] at hval
    simpa using hval

theorem stoch_rsi_replicate_all_none (n : ℕ) (c : ℚ) :
    ∀ x ∈ stoch_rsi (List.replicate n c), x = none := by
  intro x hx
  obtain ⟨a, b, c3, ha, _, _, hxy⟩ := mem_zipW3_exists hx
  have : a = none := rsi14_replicate_all_none n c a ha
  rw [hxy, this, stochCell_left_none]

theorem stoch_rsi_k_replicate_all_none (n : ℕ) (c : ℚ) :
    ∀ x ∈ stoch_rsi_k (List.replicate n c), x = none := by
  intro x hx
  rw [stoch_rsi_k] at hx
  obtain ⟨y, hy, hxy⟩ := List.mem_map.mp hx
  have : y = none := rollingO_all_none 3 listMean _ (by norm_num)
    (stoch_rsi_replicate_all_none n c) y hy
  rw [← hxy, this]
  rfl

/-! ### Concrete stochastic-RSI histories -/

/-- Alternating 17-candle close series: the claim's 14+3 threshold is met
but every `stoch_rsi_k` cell is still NaN. -/
def stochCx : List ℚ :=
  [1, 2, 1, 2, 1, 2, 1, 2, 1, 2, 1, 2, 1, 2, 1, 2, 1]

/-- Alternating 30-candle close series: the first length at which
`stoch_rsi_k` becomes non-NaN for a non-degenerate history. -/
def thirtyAlt : List ℚ :=
  [1, 2, 1, 2, 1, 2, 1, 2, 1, 2, 1, 2, 1, 2, 1, 2, 1, 2, 1, 2, 1, 2, 1, 2,
   1, 2, 1, 2, 1, 2]

/-- C6 counterexample: `stochCx` has 17 candles — the claim's 14+3 = 17
threshold is met — yet the last `stoch_rsi_k` cell is NaN (`none`), because
the pipeline needs 14 RSI warm-up diffs plus 13 more for the rolling
min/max window plus 2 for the 3-period smoothing. -/
theorem C6_counterexample :
    stochCx.length = 17 ∧ (stoch_rsi_k stochCx).getLast? = some none := by
  refine ⟨by decide, ?_⟩
  with_unfolding_all decide

/-- C6 (amended): `stoch_rsi_k` is NaN for every history shorter than 30
candles (14 RSI diffs + 13 more for the rolling 14-window + 2 for the
3-period mean), not 14+3 = 17; the 30-candle threshold is attainable (the
alternating `thirtyAlt` yields a non-NaN last cell), but length alone does
not make it non-null — constant-close histories of any length keep every
cell NaN. -/
theorem C6_stoch_warmup :
    (∀ closes : List ℚ, closes.length < 30 →
      ∀ x ∈ stoch_rsi_k closes, x = none) ∧
    (∀ (n : ℕ) (c : ℚ), ∀ x ∈ stoch_rsi_k (List.replicate n c), x = none) ∧
    ((stoch_rsi_k thirtyAlt).getLast?.getD none).isSome = true := by
  refine ⟨stoch_rsi_k_all_none_of_short, stoch_rsi_k_replicate_all_none, ?_⟩
  with_unfolding_all decide

/-- Closed instantiation of `C6_stoch_warmup`: a 3-candle history (shorter
than 30) and a constant 35-candle history both have NaN `stoch_rsi_k`
cells. -/
theorem C6_witness :
    ([1, 2, 3] : List ℚ).length < 30 ∧ (none : Cell) = none ∧
      (none : Cell) = none :=
  ⟨by norm_num,
   C6_stoch_warmup.1 [1, 2, 3] (by norm_num) none (by with_unfolding_all decide),
   C6_stoch_warmup.2.1 35 5 none (by
     have h35 : (none : Cell) ∈ stoch_rsi_k (List.replicate 35 (5 : ℚ)) := by
       with_unfolding_all decide
     exact h35)⟩

end Indicators

end BtcTrader
